import Mathlib

/-!
# PitStop workshop-management backend — verification of spec claims

Shallow embedding of the status-transition, stock-ledger, identifier-generation
and leave-overlap logic of the PitStop backend (Express + Mongoose controllers),
together with proofs settling the frozen spec claims.

Conventions of the embedding:
* JavaScript numbers that hold quantities/stock are modelled as `Int`
  (the code only ever adds/subtracts integers on these paths).
* Date values are modelled as abstract instants (`Nat`); `new Date()` at the
  time of an operation is passed in as a `now` parameter.
* `createCustomError(message, statusCode)` is modelled by `CustomError`.
* A controller that ends in `next(createCustomError ...)` is modelled as
  `Except.error`; a 200/201 response together with the persisted entity is
  modelled as `Except.ok` carrying the saved entity.
* JavaScript truthiness on a required string field is modelled as the string
  being nonempty; on a required number as the number being nonzero; optional
  request-body fields are `Option`.
-/

namespace PitStop

/-- Model of `createCustomError(message, statusCode)` from `errors/custom-error.js`. -/
structure CustomError where
  msg : String
  statusCode : Nat
deriving Repr, DecidableEq

/-! ## StockLedger: `updateStock` (inventory controller) -/

/-- Model of an `InventoryItem` document (fields relevant to stock logic):
`itemId`, `name`, `currentStock`, `minimumStock`. -/
structure InventoryItem where
  itemId : String
  name : String
  currentStock : Int
  minimumStock : Int
deriving Repr, DecidableEq

/-- Derived low-stock condition, computed on read in the controller responses:
`currentStock <= minimumStock`. -/
def isLowStock (item : InventoryItem) : Bool :=
  item.currentStock ≤ item.minimumStock

/-- Model of `updateStock` (single-item stock adjustment) from the inventory
controller, after the item has been loaded (`findById` succeeded).  Mirrors the
guard order of the source: required-fields check (`!quantity || !operation`),
operation whitelist, positivity check, then the add/subtract branch with the
insufficient-stock guard on subtract. -/
def updateStock (item : InventoryItem) (quantity : Int) (operation : String) :
    Except CustomError InventoryItem :=
  if quantity = 0 ∨ operation = "" then
    .error ⟨"Quantity and operation are required", 400⟩
  else if ¬ (operation = "add" ∨ operation = "subtract") then
    .error ⟨"Operation must be 'add' or 'subtract'", 400⟩
  else if quantity ≤ 0 then
    .error ⟨"Quantity must be positive", 400⟩
  else if operation = "add" then
    .ok { item with currentStock := item.currentStock + quantity }
  else if item.currentStock < quantity then
    .error ⟨"Insufficient stock for this operation", 400⟩
  else
    .ok { item with currentStock := item.currentStock - quantity }

/-- C2: for every inventory item and positive quantity, `subtract` fails with
the insufficient-stock error iff the quantity exceeds `currentStock`; no
successful adjustment (either operation) leaves `currentStock` negative; and
`add` always succeeds by incrementing. -/
theorem updateStock_insufficient_iff_and_nonneg (item : InventoryItem) (qty : Int)
    (hq : 0 < qty) :
    (updateStock item qty "subtract" =
        .error ⟨"Insufficient stock for this operation", 400⟩ ↔ item.currentStock < qty)
    ∧ (∀ operation item', updateStock item qty operation = .ok item' →
        0 ≤ item.currentStock → 0 ≤ item'.currentStock)
    ∧ updateStock item qty "add" = .ok { item with currentStock := item.currentStock + qty } := by
  refine ⟨?_, ?_, ?_⟩
  · rw [updateStock]
    rw [if_neg (by push_neg; exact ⟨by omega, by decide⟩)]
    rw [if_neg (by simp)]
    rw [if_neg (by omega)]
    rw [if_neg (by decide)]
    by_cases h : item.currentStock < qty
    · simp [h]
    · simp [h]
  · intro operation item' hok hnn
    rw [updateStock] at hok
    split_ifs at hok with h1 h2 h3 h4 h5
    · obtain rfl : { item with currentStock := item.currentStock + qty } = item' :=
        by exact (Except.ok.injEq _ _).mp hok
      simpa using by omega
    · obtain rfl : { item with currentStock := item.currentStock - qty } = item' :=
        by exact (Except.ok.injEq _ _).mp hok
      simpa using by omega
  · rw [updateStock]
    rw [if_neg (by push_neg; exact ⟨by omega, by decide⟩)]
    rw [if_neg (by simp)]
    rw [if_neg (by omega)]
    rw [if_pos rfl]

/-- Witness for C2 at a concrete item (stock 5, subtract 2). -/
theorem updateStock_insufficient_iff_and_nonneg_witness :
    (0 : Int) < 2 ∧
    ((updateStock ⟨"ITM00001", "Oil filter", 5, 2⟩ 2 "subtract" =
        .error ⟨"Insufficient stock for this operation", 400⟩ ↔
          (⟨"ITM00001", "Oil filter", 5, 2⟩ : InventoryItem).currentStock < 2)
      ∧ (∀ operation item', updateStock ⟨"ITM00001", "Oil filter", 5, 2⟩ 2 operation = .ok item' →
          0 ≤ (⟨"ITM00001", "Oil filter", 5, 2⟩ : InventoryItem).currentStock →
            0 ≤ item'.currentStock)
      ∧ updateStock ⟨"ITM00001", "Oil filter", 5, 2⟩ 2 "add" =
          .ok { (⟨"ITM00001", "Oil filter", 5, 2⟩ : InventoryItem) with
                  currentStock := (⟨"ITM00001", "Oil filter", 5, 2⟩ : InventoryItem).currentStock + 2 }) :=
  ⟨by decide, updateStock_insufficient_iff_and_nonneg ⟨"ITM00001", "Oil filter", 5, 2⟩ 2 (by decide)⟩

/-! ## StockLedger: `bulkUpdateStock` (inventory controller) -/

/-- One line of the bulk stock update request body: `{itemId, quantity, operation}`
(the optional `reason` plays no role in the update logic). -/
structure BulkLine where
  itemId : String
  quantity : Int
  operation : String
deriving Repr, DecidableEq

/-- An entry of the `errors` array collected by `bulkUpdateStock`: `{itemId, error}`. -/
structure BulkErrorEntry where
  itemId : String
  error : String
deriving Repr, DecidableEq

/-- An entry of the `results` array collected by `bulkUpdateStock`. -/
structure BulkResultEntry where
  itemId : String
  name : String
  operation : String
  quantity : Int
  newStock : Int
  lowStock : Bool
deriving Repr, DecidableEq

/-- Character-level model of JavaScript's `toUpperCase()` on the ASCII
identifiers used by the controllers. -/
def jsToUpper (s : String) : String := String.mk (s.data.map Char.toUpper)

/-- One iteration of the `for (const stockUpdate of items)` loop of
`bulkUpdateStock`: required-fields check, operation whitelist,
`findOne({ itemId: itemId.toUpperCase() })`, insufficient-stock guard for
subtract, then the stock mutation and `save()` (modelled as replacing the
matched document in the store; `itemId` carries a unique index). An error
leaves the store untouched (`continue`). -/
def bulkStep (store : List InventoryItem) (line : BulkLine) :
    Except BulkErrorEntry (List InventoryItem × BulkResultEntry) :=
  if line.itemId = "" ∨ line.quantity = 0 ∨ line.operation = "" then
    .error ⟨line.itemId, "ItemId, quantity, and operation are required"⟩
  else if ¬ (line.operation = "add" ∨ line.operation = "subtract") then
    .error ⟨line.itemId, "Operation must be 'add' or 'subtract'"⟩
  else
    match store.find? (fun it => it.itemId == jsToUpper line.itemId) with
    | none => .error ⟨line.itemId, "Item not found"⟩
    | some item =>
      if line.operation = "subtract" ∧ item.currentStock < line.quantity then
        .error ⟨line.itemId, "Insufficient stock"⟩
      else
        let updated :=
          if line.operation = "add" then
            { item with currentStock := item.currentStock + line.quantity }
          else
            { item with currentStock := item.currentStock - line.quantity }
        .ok (store.map (fun it => if it.itemId = item.itemId then updated else it),
             ⟨updated.itemId, updated.name, line.operation, line.quantity,
              updated.currentStock, isLowStock updated⟩)

/-- Model of the `bulkUpdateStock` loop: lines are processed left to right;
a successful line commits its save before the next line runs, a failing line
appends an `{itemId, error}` entry and leaves the store as it was.  Returns
(final store, results array, errors array). -/
def bulkUpdateStock (store : List InventoryItem) :
    List BulkLine → List InventoryItem × List BulkResultEntry × List BulkErrorEntry
  | [] => (store, [], [])
  | line :: rest =>
    match bulkStep store line with
    | .ok p =>
      let out := bulkUpdateStock p.1 rest
      (out.1, p.2 :: out.2.1, out.2.2)
    | .error e =>
      let out := bulkUpdateStock store rest
      (out.1, out.2.1, e :: out.2.2)

/-- The error entry pushed by a failing bulk line carries that line's item id. -/
theorem bulkStep_error_itemId (store : List InventoryItem) (line : BulkLine)
    (e : BulkErrorEntry) (h : bulkStep store line = .error e) :
    e.itemId = line.itemId := by
  rw [bulkStep] at h
  by_cases h1 : line.itemId = "" ∨ line.quantity = 0 ∨ line.operation = ""
  · rw [if_pos h1] at h
    injection h with h'
    subst h'
    rfl
  · rw [if_neg h1] at h
    by_cases h2 : line.operation = "add" ∨ line.operation = "subtract"
    · rw [if_neg (not_not_intro h2)] at h
      cases hf : store.find? (fun it => it.itemId == jsToUpper line.itemId) with
      | none =>
        rw [hf] at h
        injection h with h'
        subst h'
        rfl
      | some item =>
        rw [hf] at h
        dsimp only at h
        by_cases h3 : line.operation = "subtract" ∧ item.currentStock < line.quantity
        · rw [if_pos h3] at h
          injection h with h'
          subst h'
          rfl
        · rw [if_neg h3] at h
          simp at h
    · rw [if_pos h2] at h
      injection h with h'
      subst h'
      rfl

/-- The response payload of `bulkUpdateStock`.  The source's response literal
writes `errors: errors.length` and then the shorthand `errors`; in a JS object
literal the later duplicate key wins, so the serialized `errors` field is the
array itself (whose length is the failed-line count), while `processed` is
`results.length`. -/
structure BulkResponse where
  processed : Nat
  results : List BulkResultEntry
  errors : List BulkErrorEntry
deriving Repr, DecidableEq

/-- The JSON response assembled at the end of `bulkUpdateStock`. -/
def bulkUpdateStockResponse (store : List InventoryItem) (lines : List BulkLine) :
    BulkResponse :=
  let out := bulkUpdateStock store lines
  ⟨out.2.1.length, out.2.1, out.2.2⟩

/-- C8: the bulk stock update treats the lines independently with
partial-success semantics: every line yields exactly one of a result entry or
an `{itemId, error}` entry (so `processed` + number of error entries = number
of lines); the response's `processed` counts the committed lines and its
`errors` array collects the failed lines, each tagged with the line's item id;
and a line that passes its checks commits its store update before the rest of
the lines run, whether or not later lines fail (and a failing line leaves the
store unchanged for the rest). -/
theorem bulkUpdateStock_partial_success (store : List InventoryItem)
    (lines : List BulkLine) :
    (bulkUpdateStock store lines).2.1.length + (bulkUpdateStock store lines).2.2.length
        = lines.length
    ∧ (bulkUpdateStockResponse store lines).processed = (bulkUpdateStock store lines).2.1.length
    ∧ (bulkUpdateStockResponse store lines).errors = (bulkUpdateStock store lines).2.2
    ∧ (∀ e ∈ (bulkUpdateStock store lines).2.2, ∃ line ∈ lines, e.itemId = line.itemId)
    ∧ (∀ line rest store' r, bulkStep store line = .ok (store', r) →
        bulkUpdateStock store (line :: rest) =
          ((bulkUpdateStock store' rest).1,
           r :: (bulkUpdateStock store' rest).2.1,
           (bulkUpdateStock store' rest).2.2))
    ∧ (∀ line rest e, bulkStep store line = .error e →
        bulkUpdateStock store (line :: rest) =
          ((bulkUpdateStock store rest).1,
           (bulkUpdateStock store rest).2.1,
           e :: (bulkUpdateStock store rest).2.2)) := by
  refine ⟨?_, rfl, rfl, ?_, ?_, ?_⟩
  · induction lines generalizing store with
    | nil => simp [bulkUpdateStock]
    | cons line rest ih =>
      rw [bulkUpdateStock]
      cases h : bulkStep store line with
      | ok p =>
        simp only [List.length_cons]
        have := ih p.1
        omega
      | error e =>
        simp only [List.length_cons]
        have := ih store
        omega
  · induction lines generalizing store with
    | nil => simp [bulkUpdateStock]
    | cons line rest ih =>
      rw [bulkUpdateStock]
      cases h : bulkStep store line with
      | ok p =>
        intro e he
        simp only at he
        obtain ⟨l, hl, hle⟩ := ih p.1 e he
        exact ⟨l, List.mem_cons_of_mem _ hl, hle⟩
      | error e0 =>
        intro e he
        simp only [List.mem_cons] at he
        rcases he with rfl | he
        · exact ⟨line, List.mem_cons_self _ _, bulkStep_error_itemId store line _ h⟩
        · obtain ⟨l, hl, hle⟩ := ih store e he
          exact ⟨l, List.mem_cons_of_mem _ hl, hle⟩
  · intro line rest store' r h
    rw [bulkUpdateStock, h]
  · intro line rest e h
    rw [bulkUpdateStock, h]

/-- Witness for C8: the spec's scenario. Store holds A (stock 10) and B
(stock 10); lines are add 5 to A and subtract 999 from B.  A's update commits,
B lands in the errors array, `processed = 1` and one error entry. -/
theorem bulkUpdateStock_partial_success_witness :
    (bulkUpdateStock
        [⟨"ITM00001", "A", 10, 2⟩, ⟨"ITM00002", "B", 10, 2⟩]
        [⟨"ITM00001", 5, "add"⟩, ⟨"ITM00002", 999, "subtract"⟩]).2.1.length
      + (bulkUpdateStock
        [⟨"ITM00001", "A", 10, 2⟩, ⟨"ITM00002", "B", 10, 2⟩]
        [⟨"ITM00001", 5, "add"⟩, ⟨"ITM00002", 999, "subtract"⟩]).2.2.length = 2
    ∧ bulkUpdateStockResponse
        [⟨"ITM00001", "A", 10, 2⟩, ⟨"ITM00002", "B", 10, 2⟩]
        [⟨"ITM00001", 5, "add"⟩, ⟨"ITM00002", 999, "subtract"⟩] =
      ⟨1, [⟨"ITM00001", "A", "add", 5, 15, false⟩], [⟨"ITM00002", "Insufficient stock"⟩]⟩
    ∧ (bulkUpdateStock
        [⟨"ITM00001", "A", 10, 2⟩, ⟨"ITM00002", "B", 10, 2⟩]
        [⟨"ITM00001", 5, "add"⟩, ⟨"ITM00002", 999, "subtract"⟩]).1 =
      [⟨"ITM00001", "A", 15, 2⟩, ⟨"ITM00002", "B", 10, 2⟩] :=
  ⟨(bulkUpdateStock_partial_success
      [⟨"ITM00001", "A", 10, 2⟩, ⟨"ITM00002", "B", 10, 2⟩]
      [⟨"ITM00001", 5, "add"⟩, ⟨"ITM00002", 999, "subtract"⟩]).1,
   by decide, by decide⟩

/-! ## GoodsRequest: `approveGoodsRequest` and `releaseGoods`
(`vehicalContrller.js`, goods-request section) -/

/-- One populated line of `GoodsRequest.items`: the referenced inventory item's
snapshot (`itemId name currentStock` selected by the populate) together with
the requested quantity. -/
structure GoodsRequestLine where
  itemId : String
  name : String
  currentStock : Int
  quantity : Int
deriving Repr, DecidableEq

/-- Model of a `GoodsRequest` document (fields relevant to approve/release). -/
structure GoodsRequest where
  status : String
  items : List GoodsRequestLine
  approvedBy : Option String
  approvedAt : Option Nat
  rejectionReason : Option String
deriving Repr, DecidableEq

/-- Caller context for the goods-request operations: `req.user.role`, and the
department found on the caller's User document (`none` when the user is missing
or has no `employeeDetails`). -/
structure GoodsCaller where
  role : String
  department : Option String
deriving Repr, DecidableEq

/-- The authorization guard shared by approve/reject/release: admins and
managers pass outright, anyone else must have
`employeeDetails.department === "management"`. -/
def goodsAuthorized (c : GoodsCaller) : Bool :=
  c.role = "admin" ∨ c.role = "manager" ∨ c.department = some "management"

/-- The insufficient-stock message built by `approveGoodsRequest`, naming the
offending item. -/
def insufficientStockMsg (name : String) (available requested : Int) : String :=
  "Insufficient stock for " ++ name ++ ". Available: " ++ toString available ++
    ", Requested: " ++ toString requested

/-- Model of `approveGoodsRequest`: authorization guard, pending-status guard,
then a pass over all line items returning on the first one with
`currentStock < quantity`; only when every line passes are the status and the
approval stamps written (the source mutates nothing before that point). -/
def approveGoodsRequest (caller : GoodsCaller) (gr : GoodsRequest) (userId : String)
    (now : Nat) : Except CustomError GoodsRequest :=
  if ¬ goodsAuthorized caller then
    .error ⟨"Only inventory managers, admins, and managers can approve goods requests", 403⟩
  else if gr.status ≠ "pending" then
    .error ⟨"Goods request has already been processed", 400⟩
  else
    match gr.items.find? (fun l => decide (l.currentStock < l.quantity)) with
    | some l => .error ⟨insufficientStockMsg l.name l.currentStock l.quantity, 400⟩
    | none => .ok { gr with status := "approved", approvedBy := some userId,
                            approvedAt := some now }

/-- The goods request as persisted after an approval attempt: on error, nothing
was saved, so the stored document is the original one. -/
def approveGoodsRequestState (caller : GoodsCaller) (gr : GoodsRequest)
    (userId : String) (now : Nat) : GoodsRequest :=
  match approveGoodsRequest caller gr userId now with
  | .ok g => g
  | .error _ => gr

/-- C3: approving a pending goods request checks `currentStock ≥ quantity` on
every line; if some line fails, the operation returns the insufficient-stock
error naming the (first) offending item and the stored request is unchanged —
its status still `pending`; if every line passes, the status becomes
`approved` and `approvedBy`/`approvedAt` are stamped. -/
theorem approveGoodsRequest_checks_stock (caller : GoodsCaller) (gr : GoodsRequest)
    (userId : String) (now : Nat) (hauth : goodsAuthorized caller = true)
    (hpending : gr.status = "pending") :
    ((∀ l ∈ gr.items, l.quantity ≤ l.currentStock) →
      approveGoodsRequest caller gr userId now =
        .ok { gr with status := "approved", approvedBy := some userId,
                      approvedAt := some now })
    ∧ ((∃ l ∈ gr.items, l.currentStock < l.quantity) →
      ∃ l ∈ gr.items, l.currentStock < l.quantity ∧
        approveGoodsRequest caller gr userId now =
          .error ⟨insufficientStockMsg l.name l.currentStock l.quantity, 400⟩ ∧
        approveGoodsRequestState caller gr userId now = gr ∧
        (approveGoodsRequestState caller gr userId now).status = "pending") := by
  constructor
  · intro hall
    rw [approveGoodsRequest, if_neg (by simp [hauth]), if_neg (by simp [hpending])]
    have : gr.items.find? (fun l => decide (l.currentStock < l.quantity)) = none := by
      rw [List.find?_eq_none]
      intro l hl
      simpa using not_lt.mpr (hall l hl)
    rw [this]
  · intro hex
    cases hf : gr.items.find? (fun l => decide (l.currentStock < l.quantity)) with
    | none =>
      exfalso
      obtain ⟨l, hl, hlt⟩ := hex
      have := List.find?_eq_none.mp hf l hl
      simp at this
      omega
    | some l =>
      have hmem := List.mem_of_find?_eq_some hf
      have hlt : l.currentStock < l.quantity := by simpa using List.find?_some hf
      have happ : approveGoodsRequest caller gr userId now =
          .error ⟨insufficientStockMsg l.name l.currentStock l.quantity, 400⟩ := by
        rw [approveGoodsRequest, if_neg (by simp [hauth]), if_neg (by simp [hpending]), hf]
      refine ⟨l, hmem, hlt, happ, ?_, ?_⟩
      · rw [approveGoodsRequestState, happ]
      · rw [approveGoodsRequestState, happ]
        exact hpending

/-- Witness for C3: the spec scenario — a pending goods request whose single
line asks for 5 units of an item with stock 3 fails with the insufficient-stock
error and stays pending. -/
theorem approveGoodsRequest_checks_stock_witness :
    goodsAuthorized ⟨"manager", none⟩ = true ∧
    (GoodsRequest.mk "pending" [⟨"ITM00001", "Brake pad", 3, 5⟩] none none none).status
      = "pending" ∧
    ((∃ l ∈ (GoodsRequest.mk "pending" [⟨"ITM00001", "Brake pad", 3, 5⟩] none none none).items,
        l.currentStock < l.quantity) →
      ∃ l ∈ (GoodsRequest.mk "pending" [⟨"ITM00001", "Brake pad", 3, 5⟩] none none none).items,
        l.currentStock < l.quantity ∧
        approveGoodsRequest ⟨"manager", none⟩
            (GoodsRequest.mk "pending" [⟨"ITM00001", "Brake pad", 3, 5⟩] none none none)
            "M00001" 7 =
          .error ⟨insufficientStockMsg l.name l.currentStock l.quantity, 400⟩ ∧
        approveGoodsRequestState ⟨"manager", none⟩
            (GoodsRequest.mk "pending" [⟨"ITM00001", "Brake pad", 3, 5⟩] none none none)
            "M00001" 7 =
          GoodsRequest.mk "pending" [⟨"ITM00001", "Brake pad", 3, 5⟩] none none none ∧
        (approveGoodsRequestState ⟨"manager", none⟩
            (GoodsRequest.mk "pending" [⟨"ITM00001", "Brake pad", 3, 5⟩] none none none)
            "M00001" 7).status = "pending") :=
  ⟨by decide, rfl,
   (approveGoodsRequest_checks_stock ⟨"manager", none⟩
      (GoodsRequest.mk "pending" [⟨"ITM00001", "Brake pad", 3, 5⟩] none none none)
      "M00001" 7 (by decide) rfl).2⟩

/-- Model of `releaseGoods`: authorization guard, approved-status guard, then
only `status = "released"` is written.  The inventory decrement is a TODO in
the source ("For now, we'll just mark as released"); no inventory document is
touched, which we model by passing the store through unchanged. -/
def releaseGoods (caller : GoodsCaller) (store : List InventoryItem)
    (gr : GoodsRequest) : Except CustomError (List InventoryItem × GoodsRequest) :=
  if ¬ goodsAuthorized caller then
    .error ⟨"Only inventory managers, admins, and managers can release goods", 403⟩
  else if gr.status ≠ "approved" then
    .error ⟨"Only approved goods requests can be released", 400⟩
  else
    .ok (store, { gr with status := "released" })

/-- C4: releasing succeeds only from status `approved`, sets the status to
`released`, and leaves every inventory item's `currentStock` unchanged (no
stock decrement happens at release). -/
theorem releaseGoods_no_stock_mutation (caller : GoodsCaller)
    (store : List InventoryItem) (gr : GoodsRequest)
    (hauth : goodsAuthorized caller = true) :
    (gr.status ≠ "approved" →
      releaseGoods caller store gr =
        .error ⟨"Only approved goods requests can be released", 400⟩)
    ∧ (gr.status = "approved" →
      releaseGoods caller store gr = .ok (store, { gr with status := "released" }))
    ∧ (∀ store' gr', releaseGoods caller store gr = .ok (store', gr') →
      store' = store ∧ gr'.status = "released" ∧ gr'.items = gr.items) := by
  refine ⟨?_, ?_, ?_⟩
  · intro hne
    rw [releaseGoods, if_neg (by simp [hauth]), if_pos hne]
  · intro heq
    rw [releaseGoods, if_neg (by simp [hauth]), if_neg (by simp [heq])]
  · intro store' gr' h
    rw [releaseGoods, if_neg (by simp [hauth])] at h
    split_ifs at h with h1
    obtain ⟨h2, h3⟩ := Prod.mk.injEq .. ▸ (Except.ok.injEq _ _).mp h
    exact ⟨h2.symm, by rw [← h3], by rw [← h3]⟩

/-- Witness for C4 at a concrete approved request and one-item store. -/
theorem releaseGoods_no_stock_mutation_witness :
    goodsAuthorized ⟨"admin", none⟩ = true ∧
    ((GoodsRequest.mk "approved" [⟨"ITM00001", "Brake pad", 3, 2⟩] (some "M00001") (some 5) none).status
        = "approved" →
      releaseGoods ⟨"admin", none⟩ [⟨"ITM00001", "Brake pad", 3, 2⟩]
          (GoodsRequest.mk "approved" [⟨"ITM00001", "Brake pad", 3, 2⟩] (some "M00001") (some 5) none) =
        .ok ([⟨"ITM00001", "Brake pad", 3, 2⟩],
          { GoodsRequest.mk "approved" [⟨"ITM00001", "Brake pad", 3, 2⟩] (some "M00001") (some 5) none with
              status := "released" })) :=
  ⟨by decide,
   (releaseGoods_no_stock_mutation ⟨"admin", none⟩ [⟨"ITM00001", "Brake pad", 3, 2⟩]
      (GoodsRequest.mk "approved" [⟨"ITM00001", "Brake pad", 3, 2⟩] (some "M00001") (some 5) none)
      (by decide)).2.1⟩

/-! ## Booking status updates

The repository ships two `updateBookingStatus` implementations: one inside
`leaveRequestController.js` (booking section), which validates an
allowed-transition table, and one in `bookingController.js` — the one the
booking route files import — which validates only that the requested status is
a member of the status enum and performs **no** transition validation. -/

/-- A note pushed onto `booking.notes`. -/
structure BookingNote where
  note : String
  createdBy : String
  createdAt : Nat
deriving Repr, DecidableEq

/-- Model of a `Booking` document (fields relevant to status updates). -/
structure Booking where
  status : String
  completedAt : Option Nat
  notes : List BookingNote
deriving Repr, DecidableEq

/-- The `validStatuses` whitelist shared by both implementations. -/
def validBookingStatuses : List String :=
  ["pending", "inspecting", "working", "completed", "cancelled"]

/-- The `allowedTransitions` table of the implementation in
`leaveRequestController.js`; `completed` and `cancelled` map to `[]`. -/
def bookingAllowedTransitions (s : String) : List String :=
  if s = "pending" then ["inspecting", "cancelled"]
  else if s = "inspecting" then ["working", "cancelled"]
  else if s = "working" then ["completed", "cancelled"]
  else []

/-- The invalid-transition message of `leaveRequestController.js`. -/
def invalidTransitionMsg (cur req : String) : String :=
  "Cannot change status from " ++ cur ++ " to " ++ req

/-- JavaScript `a || b` on an optional string (missing or empty falls back). -/
def jsOr (s : Option String) (dflt : String) : String :=
  match s with
  | some v => if v = "" then dflt else v
  | none => dflt

/-- Model of `updateBookingStatus` from `leaveRequestController.js` (after the
booking is found): required/valid status guards, the transition-table guard,
then the status write, the `completedAt` stamp when the new status is
`completed`, and the note push (`note || "Status updated to <status>"`). -/
def lrUpdateBookingStatus (b : Booking) (status : String) (note : Option String)
    (userId : String) (now : Nat) : Except CustomError Booking :=
  if status = "" then
    .error ⟨"Status is required", 400⟩
  else if status ∉ validBookingStatuses then
    .error ⟨"Invalid status", 400⟩
  else if status ∉ bookingAllowedTransitions b.status then
    .error ⟨invalidTransitionMsg b.status status, 400⟩
  else
    let b1 : Booking :=
      { b with status := status,
               completedAt := if status = "completed" then some now else b.completedAt }
    .ok { b1 with notes := b1.notes ++ [⟨jsOr note ("Status updated to " ++ status), userId, now⟩] }

/-- Model of `updateBookingStatus` from `bookingController.js` (after the
booking is found): required/valid status guards only — no transition table —
then `findByIdAndUpdate` with the new status (and `completedAt` when the status
is `completed`), and a note push when `notes` is truthy. -/
def bcUpdateBookingStatus (b : Booking) (status : String) (notes : Option String)
    (userId : String) (now : Nat) : Except CustomError Booking :=
  if status = "" then
    .error ⟨"Status is required", 400⟩
  else if status ∉ validBookingStatuses then
    .error ⟨"Invalid status", 400⟩
  else
    let b1 : Booking :=
      { b with status := status,
               completedAt := if status = "completed" then some now else b.completedAt }
    match notes with
    | some n => if n = "" then .ok b1 else .ok { b1 with notes := b1.notes ++ [⟨n, userId, now⟩] }
    | none => .ok b1

/-- C1 counterexample: on the `bookingController.js` status-update operation —
the implementation the booking routes import — a direct `pending → working`
request succeeds instead of failing with an invalid-transition error, refuting
the claim that the status-update operation permits exactly the transitions of
the table. -/
theorem bcUpdateBookingStatus_pending_to_working_succeeds :
    bcUpdateBookingStatus ⟨"pending", none, []⟩ "working" none "C00001" 3 =
      .ok ⟨"working", none, []⟩ := by rfl

/-- C1 (amended): the `leaveRequestController.js` implementation permits
exactly the table `pending→{inspecting,cancelled}`, `inspecting→{working,cancelled}`,
`working→{completed,cancelled}` with `completed`/`cancelled` terminal, failing
disallowed requests (in particular direct `pending→working`) with the
invalid-transition error, and along `pending→inspecting→working→completed` it
stamps `completedAt` only at the final step; the `bookingController.js`
implementation accepts any whitelisted status with no transition validation,
stamping `completedAt` whenever the requested status is `completed`. -/
theorem updateBookingStatus_transition_table (b : Booking) (status : String)
    (note : Option String) (userId : String) (now : Nat)
    (hs : status ∈ validBookingStatuses) :
    (status ∉ bookingAllowedTransitions b.status →
      lrUpdateBookingStatus b status note userId now =
        .error ⟨invalidTransitionMsg b.status status, 400⟩)
    ∧ (status ∈ bookingAllowedTransitions b.status →
      ∃ b', lrUpdateBookingStatus b status note userId now = .ok b' ∧
        b'.status = status ∧
        b'.completedAt = (if status = "completed" then some now else b.completedAt))
    ∧ (b.status = "completed" ∨ b.status = "cancelled" →
      lrUpdateBookingStatus b status note userId now =
        .error ⟨invalidTransitionMsg b.status status, 400⟩)
    ∧ (b.status = "pending" → b.completedAt = none →
      ∃ b1 b2 b3,
        lrUpdateBookingStatus b "inspecting" note userId now = .ok b1 ∧
        b1.status = "inspecting" ∧ b1.completedAt = none ∧
        lrUpdateBookingStatus b1 "working" note userId now = .ok b2 ∧
        b2.status = "working" ∧ b2.completedAt = none ∧
        lrUpdateBookingStatus b2 "completed" note userId now = .ok b3 ∧
        b3.status = "completed" ∧ b3.completedAt = some now)
    ∧ (∃ b', bcUpdateBookingStatus b status note userId now = .ok b' ∧
        b'.status = status ∧
        b'.completedAt = (if status = "completed" then some now else b.completedAt)) := by
  have hne : ¬ status = "" := by
    simp only [validBookingStatuses, List.mem_cons, List.not_mem_nil, or_false] at hs
    rcases hs with rfl | rfl | rfl | rfl | rfl <;> decide
  have herr : status ∉ bookingAllowedTransitions b.status →
      lrUpdateBookingStatus b status note userId now =
        .error ⟨invalidTransitionMsg b.status status, 400⟩ := by
    intro htab
    rw [lrUpdateBookingStatus, if_neg hne, if_neg (not_not_intro hs), if_pos htab]
  refine ⟨herr, ?_, ?_, ?_, ?_⟩
  · intro htab
    rw [lrUpdateBookingStatus, if_neg hne, if_neg (not_not_intro hs),
      if_neg (not_not_intro htab)]
    exact ⟨_, rfl, rfl, rfl⟩
  · intro hterm
    apply herr
    have htab : bookingAllowedTransitions b.status = [] := by
      rcases hterm with h | h <;> simp [bookingAllowedTransitions, h]
    simp [htab]
  · intro hp hc
    obtain ⟨bs, bca, bns⟩ := b
    simp only at hp hc
    subst hp
    subst hc
    refine ⟨⟨"inspecting", none,
        bns ++ [⟨jsOr note "Status updated to inspecting", userId, now⟩]⟩,
      ⟨"working", none,
        (bns ++ [⟨jsOr note "Status updated to inspecting", userId, now⟩]) ++
          [⟨jsOr note "Status updated to working", userId, now⟩]⟩,
      ⟨"completed", some now,
        ((bns ++ [⟨jsOr note "Status updated to inspecting", userId, now⟩]) ++
          [⟨jsOr note "Status updated to working", userId, now⟩]) ++
          [⟨jsOr note "Status updated to completed", userId, now⟩]⟩,
      ?_, rfl, rfl, ?_, rfl, rfl, ?_, rfl, rfl⟩
    · rw [lrUpdateBookingStatus, if_neg (by decide), if_neg (not_not_intro (by decide)),
        if_neg (not_not_intro (by simp [bookingAllowedTransitions]))]
      rfl
    · rw [lrUpdateBookingStatus, if_neg (by decide), if_neg (not_not_intro (by decide)),
        if_neg (not_not_intro (by simp [bookingAllowedTransitions]))]
      rfl
    · rw [lrUpdateBookingStatus, if_neg (by decide), if_neg (not_not_intro (by decide)),
        if_neg (not_not_intro (by simp [bookingAllowedTransitions]))]
      rfl
  · rw [bcUpdateBookingStatus, if_neg hne, if_neg (not_not_intro hs)]
    rcases note with _ | n
    · exact ⟨_, rfl, rfl, rfl⟩
    · dsimp only
      by_cases hn : n = ""
      · rw [if_pos hn]
        exact ⟨_, rfl, rfl, rfl⟩
      · rw [if_neg hn]
        exact ⟨_, rfl, rfl, rfl⟩

/-- Witness for amended C1 at a concrete pending booking with requested status
`working`: the validating implementation rejects the direct `pending→working`
move while the routed implementation accepts it, and the full chain succeeds. -/
theorem updateBookingStatus_transition_table_witness :
    "working" ∈ validBookingStatuses ∧
    (("working" ∉ bookingAllowedTransitions (Booking.mk "pending" none []).status →
      lrUpdateBookingStatus ⟨"pending", none, []⟩ "working" none "SA00001" 9 =
        .error ⟨invalidTransitionMsg (Booking.mk "pending" none []).status "working", 400⟩)
    ∧ ("working" ∈ bookingAllowedTransitions (Booking.mk "pending" none []).status →
      ∃ b', lrUpdateBookingStatus ⟨"pending", none, []⟩ "working" none "SA00001" 9 = .ok b' ∧
        b'.status = "working" ∧
        b'.completedAt = (if "working" = "completed" then some 9
          else (Booking.mk "pending" none []).completedAt))
    ∧ ((Booking.mk "pending" none []).status = "completed" ∨
        (Booking.mk "pending" none []).status = "cancelled" →
      lrUpdateBookingStatus ⟨"pending", none, []⟩ "working" none "SA00001" 9 =
        .error ⟨invalidTransitionMsg (Booking.mk "pending" none []).status "working", 400⟩)
    ∧ ((Booking.mk "pending" none []).status = "pending" →
        (Booking.mk "pending" none []).completedAt = none →
      ∃ b1 b2 b3,
        lrUpdateBookingStatus ⟨"pending", none, []⟩ "inspecting" none "SA00001" 9 = .ok b1 ∧
        b1.status = "inspecting" ∧ b1.completedAt = none ∧
        lrUpdateBookingStatus b1 "working" none "SA00001" 9 = .ok b2 ∧
        b2.status = "working" ∧ b2.completedAt = none ∧
        lrUpdateBookingStatus b2 "completed" none "SA00001" 9 = .ok b3 ∧
        b3.status = "completed" ∧ b3.completedAt = some 9)
    ∧ (∃ b', bcUpdateBookingStatus ⟨"pending", none, []⟩ "working" none "SA00001" 9 = .ok b' ∧
        b'.status = "working" ∧
        b'.completedAt = (if "working" = "completed" then some 9
          else (Booking.mk "pending" none []).completedAt))) :=
  ⟨by decide,
   updateBookingStatus_transition_table ⟨"pending", none, []⟩ "working" none "SA00001" 9
     (by decide)⟩

/-! ## Job status updates (`jobController.js` + the Job model's pre-save hook) -/

/-- An entry of `job.workLog`; the hook reads `log.hoursLogged || 0`, so a
missing value counts as 0. -/
structure WorkLogEntry where
  hoursLogged : Option Int
deriving Repr, DecidableEq

/-- Model of a `Job` document (fields relevant to status updates).
`assignedLabourers` keeps only the labourer ids of the
`{labourer, assignedAt, hoursWorked}` subdocuments, which is all
`updateJobStatus` reads. -/
structure Job where
  status : String
  startedAt : Option Nat
  completedAt : Option Nat
  actualHours : Int
  labourCost : Int
  workLog : List WorkLogEntry
  assignedLabourers : List String
  notes : Option String
deriving Repr, DecidableEq

/-- The Job schema's status enum. -/
def jobStatusEnum : List String :=
  ["pending", "working", "completed", "cancelled", "on_hold"]

/-- `workLog.reduce((total, log) => total + (log.hoursLogged || 0), 0)`. -/
def workLogHours (l : List WorkLogEntry) : Int :=
  l.foldl (fun total log => total + log.hoursLogged.getD 0) 0

/-- Model of the Job model's pre-save hook (after the jobId generation step):
when the `status` path was modified, stamp `startedAt` on entry to `working`
with no prior `startedAt`, else stamp `completedAt` on entry to `completed`
with no prior `completedAt`; then recompute `actualHours` from a nonempty work
log, and `labourCost` at the default hourly rate of 50 when hours and
labourers are present. -/
def jobPreSave (j : Job) (statusModified : Bool) (now : Nat) : Job :=
  let j1 :=
    if statusModified then
      if j.status = "working" ∧ j.startedAt = none then
        { j with startedAt := some now }
      else if j.status = "completed" ∧ j.completedAt = none then
        { j with completedAt := some now }
      else j
    else j
  let j2 :=
    if j1.workLog ≠ [] then { j1 with actualHours := workLogHours j1.workLog } else j1
  if 0 < j2.actualHours ∧ j2.assignedLabourers ≠ [] then
    { j2 with labourCost := j2.actualHours * 50 }
  else j2

/-- `if (notes) job.notes = notes` (truthiness: absent or empty keeps the old). -/
def applyNotes (old : Option String) (notes : Option String) : Option String :=
  match notes with
  | some n => if n = "" then old else some n
  | none => old

/-- `job.save()`: mongoose validates the schema's status enum (an out-of-enum
status rejects as a ValidationError, surfaced as a 400 by the central error
handler), then the pre-save hook runs.  The hook's `isModified('status')` is
true exactly when the controller assigned a different status value. -/
def saveJobDoc (j : Job) (statusModified : Bool) (now : Nat) :
    Except CustomError Job :=
  if j.status ∉ jobStatusEnum then
    .error ⟨"Job validation failed: status is not a valid enum value", 400⟩
  else
    .ok (jobPreSave j statusModified now)

/-- The technician-only `allowedTransitions` table of `updateJobStatus`;
`completed`/`cancelled` have no entry (`allowedTransitions[job.status]?.includes`
is false there). -/
def jobAllowedTransitions (s : String) : List String :=
  if s = "pending" then ["working"]
  else if s = "working" then ["completed", "on_hold"]
  else if s = "on_hold" then ["working"]
  else []

/-- Model of `updateJobStatus` from `jobController.js` (after the job is
found): technicians must be among the assigned labourers and must respect the
transition table; every other role skips both checks; then the status (and
optional notes) are assigned and the document is saved. -/
def updateJobStatus (j : Job) (role userId status : String)
    (notes : Option String) (now : Nat) : Except CustomError Job :=
  if role = "technician" ∧ userId ∉ j.assignedLabourers then
    .error ⟨"Access denied. Job not assigned to you", 403⟩
  else if role = "technician" ∧ status ∉ jobAllowedTransitions j.status then
    .error ⟨"Invalid status transition from " ++ j.status ++ " to " ++ status, 400⟩
  else
    saveJobDoc { j with status := status, notes := applyNotes j.notes notes }
      (decide (j.status ≠ status)) now

/-- `startedAt` after the pre-save hook. -/
theorem jobPreSave_startedAt (j : Job) (m : Bool) (now : Nat) :
    (jobPreSave j m now).startedAt =
      if m ∧ j.status = "working" ∧ j.startedAt = none then some now
      else j.startedAt := by
  simp only [jobPreSave]
  split_ifs <;> simp_all

/-- `completedAt` after the pre-save hook. -/
theorem jobPreSave_completedAt (j : Job) (m : Bool) (now : Nat) :
    (jobPreSave j m now).completedAt =
      if m ∧ ¬ (j.status = "working" ∧ j.startedAt = none) ∧
          j.status = "completed" ∧ j.completedAt = none then some now
      else j.completedAt := by
  simp only [jobPreSave]
  split_ifs <;> simp_all

/-- `actualHours` after the pre-save hook. -/
theorem jobPreSave_actualHours (j : Job) (m : Bool) (now : Nat) :
    (jobPreSave j m now).actualHours =
      if j.workLog = [] then j.actualHours else workLogHours j.workLog := by
  simp only [jobPreSave]
  split_ifs <;> simp_all

/-- `status` after the pre-save hook (the hook never rewrites the status). -/
theorem jobPreSave_status (j : Job) (m : Bool) (now : Nat) :
    (jobPreSave j m now).status = j.status := by
  simp only [jobPreSave]
  split_ifs <;> simp_all

/-- A successful `updateJobStatus` saved the document built from the requested
status with the pre-save hook applied. -/
theorem updateJobStatus_ok (j : Job) (role userId status : String)
    (notes : Option String) (now : Nat) (j' : Job)
    (hok : updateJobStatus j role userId status notes now = .ok j') :
    j' = jobPreSave { j with status := status, notes := applyNotes j.notes notes }
      (decide (j.status ≠ status)) now ∧ status ∈ jobStatusEnum := by
  rw [updateJobStatus] at hok
  split_ifs at hok with h1 h2
  rw [saveJobDoc] at hok
  split_ifs at hok with h3
  exact ⟨((Except.ok.injEq _ _).mp hok).symm, by simpa using h3⟩

/-- C6: when a status update enters `working` for the first time (no prior
`startedAt`), the save stamps `startedAt = now`; a prior `startedAt` is never
overwritten; when it enters `completed` with no prior `completedAt`, the save
stamps `completedAt = now` and writes `actualHours` to the sum of the work-log
hours (for a nonempty work log; the hook leaves `actualHours` untouched on an
empty log). -/
theorem updateJobStatus_stamps_on_entry (j : Job) (role userId status : String)
    (notes : Option String) (now : Nat) (j' : Job)
    (hok : updateJobStatus j role userId status notes now = .ok j') :
    j'.status = status
    ∧ (status = "working" → j.status ≠ "working" → j.startedAt = none →
        j'.startedAt = some now)
    ∧ (j.startedAt ≠ none → j'.startedAt = j.startedAt)
    ∧ (status = "completed" → j.status ≠ "completed" → j.completedAt = none →
        j'.completedAt = some now)
    ∧ (status = "completed" → j.workLog ≠ [] →
        j'.actualHours = workLogHours j.workLog)
    ∧ (j.workLog = [] → j'.actualHours = j.actualHours) := by
  obtain ⟨rfl, henum⟩ := updateJobStatus_ok j role userId status notes now j' hok
  refine ⟨?_, ?_, ?_, ?_, ?_, ?_⟩
  · rw [jobPreSave_status]
  · intro hw hch hst
    subst hw
    rw [jobPreSave_startedAt]
    rw [if_pos ⟨by simpa using hch, rfl, by simpa using hst⟩]
  · intro hst
    rw [jobPreSave_startedAt]
    rw [if_neg (by simp_all)]
  · intro hc hch hco
    subst hc
    rw [jobPreSave_completedAt]
    rw [if_pos ⟨by simpa using hch, by simp, rfl, by simpa using hco⟩]
  · intro hc hwl
    subst hc
    rw [jobPreSave_actualHours]
    simpa using fun h => absurd h hwl
  · intro hwl
    rw [jobPreSave_actualHours]
    simp_all

/-- Witness for C6: an assigned technician completes a `working` job carrying a
work log of 3 + 2 hours; the save stamps `completedAt = 9`, keeps
`startedAt = some 1`, and writes `actualHours = 5`. -/
theorem updateJobStatus_stamps_on_entry_witness :
    updateJobStatus ⟨"working", some 1, none, 0, 0, [⟨some 3⟩, ⟨some 2⟩], ["T00001"], none⟩
        "technician" "T00001" "completed" none 9 =
      .ok ⟨"completed", some 1, some 9, 5, 250, [⟨some 3⟩, ⟨some 2⟩], ["T00001"], none⟩ ∧
    ((⟨"completed", some 1, some 9, 5, 250, [⟨some 3⟩, ⟨some 2⟩], ["T00001"], none⟩ : Job).status
        = "completed"
    ∧ ("completed" = "working" →
        (⟨"working", some 1, none, 0, 0, [⟨some 3⟩, ⟨some 2⟩], ["T00001"], none⟩ : Job).status ≠ "working" →
        (⟨"working", some 1, none, 0, 0, [⟨some 3⟩, ⟨some 2⟩], ["T00001"], none⟩ : Job).startedAt = none →
        (⟨"completed", some 1, some 9, 5, 250, [⟨some 3⟩, ⟨some 2⟩], ["T00001"], none⟩ : Job).startedAt = some 9)
    ∧ ((⟨"working", some 1, none, 0, 0, [⟨some 3⟩, ⟨some 2⟩], ["T00001"], none⟩ : Job).startedAt ≠ none →
        (⟨"completed", some 1, some 9, 5, 250, [⟨some 3⟩, ⟨some 2⟩], ["T00001"], none⟩ : Job).startedAt =
          (⟨"working", some 1, none, 0, 0, [⟨some 3⟩, ⟨some 2⟩], ["T00001"], none⟩ : Job).startedAt)
    ∧ ("completed" = "completed" →
        (⟨"working", some 1, none, 0, 0, [⟨some 3⟩, ⟨some 2⟩], ["T00001"], none⟩ : Job).status ≠ "completed" →
        (⟨"working", some 1, none, 0, 0, [⟨some 3⟩, ⟨some 2⟩], ["T00001"], none⟩ : Job).completedAt = none →
        (⟨"completed", some 1, some 9, 5, 250, [⟨some 3⟩, ⟨some 2⟩], ["T00001"], none⟩ : Job).completedAt = some 9)
    ∧ ("completed" = "completed" →
        (⟨"working", some 1, none, 0, 0, [⟨some 3⟩, ⟨some 2⟩], ["T00001"], none⟩ : Job).workLog ≠ [] →
        (⟨"completed", some 1, some 9, 5, 250, [⟨some 3⟩, ⟨some 2⟩], ["T00001"], none⟩ : Job).actualHours =
          workLogHours (⟨"working", some 1, none, 0, 0, [⟨some 3⟩, ⟨some 2⟩], ["T00001"], none⟩ : Job).workLog)
    ∧ ((⟨"working", some 1, none, 0, 0, [⟨some 3⟩, ⟨some 2⟩], ["T00001"], none⟩ : Job).workLog = [] →
        (⟨"completed", some 1, some 9, 5, 250, [⟨some 3⟩, ⟨some 2⟩], ["T00001"], none⟩ : Job).actualHours =
          (⟨"working", some 1, none, 0, 0, [⟨some 3⟩, ⟨some 2⟩], ["T00001"], none⟩ : Job).actualHours)) :=
  ⟨rfl,
   updateJobStatus_stamps_on_entry
     ⟨"working", some 1, none, 0, 0, [⟨some 3⟩, ⟨some 2⟩], ["T00001"], none⟩
     "technician" "T00001" "completed" none 9
     ⟨"completed", some 1, some 9, 5, 250, [⟨some 3⟩, ⟨some 2⟩], ["T00001"], none⟩
     rfl⟩

/-- C10: `updateJobStatus` enforces the transition table only for technicians
(who must be assigned to the job); any other role may set any whitelisted
status with no transition validation, including moving a job out of the
terminal statuses `completed` and `cancelled`. -/
theorem updateJobStatus_role_gated_validation (j : Job) (role userId status : String)
    (notes : Option String) (now : Nat) (hstatus : status ∈ jobStatusEnum) :
    (role = "technician" → userId ∉ j.assignedLabourers →
      updateJobStatus j role userId status notes now =
        .error ⟨"Access denied. Job not assigned to you", 403⟩)
    ∧ (role = "technician" → userId ∈ j.assignedLabourers →
        status ∉ jobAllowedTransitions j.status →
      updateJobStatus j role userId status notes now =
        .error ⟨"Invalid status transition from " ++ j.status ++ " to " ++ status, 400⟩)
    ∧ (role ≠ "technician" →
      updateJobStatus j role userId status notes now =
        .ok (jobPreSave { j with status := status, notes := applyNotes j.notes notes }
          (decide (j.status ≠ status)) now))
    ∧ jobAllowedTransitions "pending" = ["working"]
    ∧ jobAllowedTransitions "working" = ["completed", "on_hold"]
    ∧ jobAllowedTransitions "on_hold" = ["working"]
    ∧ jobAllowedTransitions "completed" = []
    ∧ jobAllowedTransitions "cancelled" = [] := by
  refine ⟨?_, ?_, ?_, rfl, rfl, rfl, rfl, rfl⟩
  · intro hrole hnotin
    rw [updateJobStatus, if_pos ⟨hrole, hnotin⟩]
  · intro hrole hmem htab
    rw [updateJobStatus, if_neg (by simp [hmem]), if_pos ⟨hrole, htab⟩]
  · intro hrole
    rw [updateJobStatus, if_neg (by simp [hrole]), if_neg (by simp [hrole]),
      saveJobDoc, if_neg (not_not_intro (by simpa using hstatus))]

/-- Witness for C10: a manager pulls a `completed` job back to `pending` —
no transition validation applies. -/
theorem updateJobStatus_role_gated_validation_witness :
    "pending" ∈ jobStatusEnum ∧
    (("manager" ≠ "technician" →
      updateJobStatus ⟨"completed", some 1, some 2, 5, 250, [⟨some 5⟩], ["T00001"], none⟩
          "manager" "M00001" "pending" none 9 =
        .ok (jobPreSave
          { (⟨"completed", some 1, some 2, 5, 250, [⟨some 5⟩], ["T00001"], none⟩ : Job) with
              status := "pending",
              notes := applyNotes
                (⟨"completed", some 1, some 2, 5, 250, [⟨some 5⟩], ["T00001"], none⟩ : Job).notes none }
          (decide ((⟨"completed", some 1, some 2, 5, 250, [⟨some 5⟩], ["T00001"], none⟩ : Job).status
            ≠ "pending")) 9))) :=
  ⟨by decide,
   (updateJobStatus_role_gated_validation
      ⟨"completed", some 1, some 2, 5, 250, [⟨some 5⟩], ["T00001"], none⟩
      "manager" "M00001" "pending" none 9 (by decide)).2.2.1⟩

/-! ## Invoices: `updateInvoice` / `updateInvoiceStatus` (`invoiceController.js`)

Monetary values are modelled as `Int` (the controllers only add, subtract and
multiply them). -/

/-- A stored invoice line item (with its computed per-line `total`). -/
structure InvoiceItem where
  description : String
  quantity : Int
  unitPrice : Int
  total : Int
deriving Repr, DecidableEq

/-- A request-body line item for an items update (before processing). -/
structure InvoiceItemInput where
  description : String
  quantity : Int
  unitPrice : Int
deriving Repr, DecidableEq

/-- Model of an `Invoice` document (fields relevant to updates). -/
structure Invoice where
  status : String
  items : List InvoiceItem
  laborCharges : Int
  subtotal : Int
  tax : Int
  discount : Int
  total : Int
  paymentMethod : Option String
  paidAt : Option Nat
  notes : Option String
deriving Repr, DecidableEq

/-- The Invoice schema's status enum. -/
def invoiceStatusEnum : List String := ["draft", "pending", "paid", "cancelled"]

/-- The `updateInvoice` request body (`{ ...req.body }`): a field is `some`
exactly when the corresponding key is present. -/
structure InvoiceUpdate where
  invoiceId : Option String
  booking : Option String
  customer : Option String
  createdBy : Option String
  paymentMethod : Option String
  paidAt : Option Nat
  notes : Option String
  items : Option (List InvoiceItemInput)
  laborCharges : Option Int
  tax : Option Int
  discount : Option Int
  status : Option String
deriving Repr, DecidableEq

/-- `delete updateData.invoiceId/booking/customer/createdBy` — the four keys
stripped unconditionally at the start of `updateInvoice`. -/
def invoiceUpdateStrip (u : InvoiceUpdate) : InvoiceUpdate :=
  { u with invoiceId := none, booking := none, customer := none, createdBy := none }

/-- `Object.keys(updateData)` over the modelled fields. -/
def updKeys (u : InvoiceUpdate) : List String :=
  (if u.invoiceId.isSome then ["invoiceId"] else []) ++
  (if u.booking.isSome then ["booking"] else []) ++
  (if u.customer.isSome then ["customer"] else []) ++
  (if u.createdBy.isSome then ["createdBy"] else []) ++
  (if u.paymentMethod.isSome then ["paymentMethod"] else []) ++
  (if u.paidAt.isSome then ["paidAt"] else []) ++
  (if u.notes.isSome then ["notes"] else []) ++
  (if u.items.isSome then ["items"] else []) ++
  (if u.laborCharges.isSome then ["laborCharges"] else []) ++
  (if u.tax.isSome then ["tax"] else []) ++
  (if u.discount.isSome then ["discount"] else []) ++
  (if u.status.isSome then ["status"] else [])

/-- The `allowedFields` whitelist for updating a paid invoice. -/
def invoiceAllowedPaidFields : List String := ["paymentMethod", "paidAt", "notes"]

/-- `invalidFields = updateFields.filter(field => !allowedFields.includes(field))`. -/
def invalidPaidFields (u : InvoiceUpdate) : List String :=
  (updKeys u).filter (fun f => decide (f ∉ invoiceAllowedPaidFields))

/-- `a || b` on an optional number (0 is falsy): `updateData.laborCharges || invoice.laborCharges`. -/
def jsOrInt (a : Option Int) (b : Int) : Int :=
  match a with
  | some v => if v = 0 then b else v
  | none => b

/-- The `findByIdAndUpdate` application of the (possibly recomputed) update
data: present fields overwrite, absent fields keep the stored value; `calc`
carries the recomputed `(items, subtotal, total)` when the body updated items. -/
def applyInvoiceUpdate (inv : Invoice) (u : InvoiceUpdate)
    (calcd : Option (List InvoiceItem × Int × Int)) : Invoice :=
  let base : Invoice :=
    { inv with
      paymentMethod := match u.paymentMethod with
        | some v => some v
        | none => inv.paymentMethod,
      paidAt := match u.paidAt with
        | some v => some v
        | none => inv.paidAt,
      notes := match u.notes with
        | some v => some v
        | none => inv.notes,
      laborCharges := u.laborCharges.getD inv.laborCharges,
      tax := u.tax.getD inv.tax,
      discount := u.discount.getD inv.discount,
      status := u.status.getD inv.status }
  match calcd with
  | some (its, sub, tot) => { base with items := its, subtotal := sub, total := tot }
  | none => base

/-- The persisted write of `updateInvoice` (`runValidators: true`): an
out-of-enum status in the update data rejects as a ValidationError (400). -/
def persistInvoiceUpdate (inv : Invoice) (u : InvoiceUpdate)
    (calcd : Option (List InvoiceItem × Int × Int)) : Except CustomError Invoice :=
  match u.status with
  | some st =>
    if st ∉ invoiceStatusEnum then
      .error ⟨"Invoice validation failed: status is not a valid enum value", 400⟩
    else .ok (applyInvoiceUpdate inv u calcd)
  | none => .ok (applyInvoiceUpdate inv u calcd)

/-- The part of `updateInvoice` after the paid-invoice gate: when `items` is
present, each input must have a truthy description/quantity/unitPrice (else the
thrown Error surfaces as a 500), per-line totals and the subtotal are
recomputed, `subtotal += laborCharges || invoice.laborCharges`, the total
`subtotal + tax - discount` must not be negative, and the recomputed fields are
persisted along with the rest of the body. -/
def updateInvoiceRest (inv : Invoice) (u : InvoiceUpdate) :
    Except CustomError Invoice :=
  match u.items with
  | none => persistInvoiceUpdate inv u none
  | some its =>
    if its.any (fun i => i.description = "" ∨ i.quantity = 0 ∨ i.unitPrice = 0) then
      .error ⟨"Each item must have description, quantity, and unit price", 500⟩
    else
      let processed := its.map (fun i =>
        InvoiceItem.mk i.description i.quantity i.unitPrice (i.quantity * i.unitPrice))
      let subtotal := (processed.foldl (fun acc i => acc + i.total) 0) +
        jsOrInt u.laborCharges inv.laborCharges
      let total := subtotal + u.tax.getD inv.tax - u.discount.getD inv.discount
      if total < 0 then
        .error ⟨"Total amount cannot be negative", 400⟩
      else
        persistInvoiceUpdate inv u (some (processed, subtotal, total))

/-- Model of `updateInvoice` (after the invoice is found): strip the four
protected keys, gate updates on paid invoices to
`paymentMethod`/`paidAt`/`notes`, then process the body. -/
def updateInvoice (inv : Invoice) (u0 : InvoiceUpdate) :
    Except CustomError Invoice :=
  let u := invoiceUpdateStrip u0
  if inv.status = "paid" then
    if invalidPaidFields u ≠ [] then
      .error ⟨"Cannot modify paid invoice except payment method, paid date, and notes", 400⟩
    else updateInvoiceRest inv u
  else updateInvoiceRest inv u

/-- Model of `updateInvoiceStatus` (after the invoice is found): status
whitelist, the paid/cancelled terminality guards, then the payment-method
requirement and `paidAt = paidAt || new Date()` when marking paid. -/
def updateInvoiceStatus (inv : Invoice) (status : String)
    (paymentMethod : Option String) (paidAt : Option Nat) (now : Nat) :
    Except CustomError Invoice :=
  if status = "" ∨ status ∉ invoiceStatusEnum then
    .error ⟨"Please provide a valid status (draft, pending, paid, cancelled)", 400⟩
  else if inv.status = "paid" ∧ status ≠ "paid" then
    .error ⟨"Cannot change status of a paid invoice", 400⟩
  else if inv.status = "cancelled" ∧ status ≠ "cancelled" then
    .error ⟨"Cannot change status of a cancelled invoice", 400⟩
  else if status = "paid" then
    match paymentMethod with
    | none => .error ⟨"Payment method is required when marking invoice as paid", 400⟩
    | some pm =>
      if pm = "" then
        .error ⟨"Payment method is required when marking invoice as paid", 400⟩
      else
        .ok { inv with paymentMethod := some pm, paidAt := some (paidAt.getD now),
                       status := "paid" }
  else
    .ok { inv with status := status }

/-- A body whose only key is `notes`. -/
def notesOnlyUpdate (n : String) : InvoiceUpdate :=
  ⟨none, none, none, none, none, none, some n, none, none, none, none, none⟩

/-- If the paid-invalid-fields list of a (stripped) body is empty, none of the
non-whitelisted keys is present. -/
theorem invalidPaidFields_eq_nil (u : InvoiceUpdate) (h : invalidPaidFields u = []) :
    u.items = none ∧ u.status = none := by
  have hmem : ∀ f ∈ updKeys u, f ∈ invoiceAllowedPaidFields := by
    intro f hf
    by_contra hnot
    have : f ∈ invalidPaidFields u :=
      List.mem_filter.mpr ⟨hf, by simpa using hnot⟩
    simp [h] at this
  constructor
  · cases hit : u.items with
    | none => rfl
    | some its =>
      have : "items" ∈ updKeys u := by simp [updKeys, hit]
      have := hmem _ this
      simp [invoiceAllowedPaidFields] at this
  · cases hst : u.status with
    | none => rfl
    | some st =>
      have : "status" ∈ updKeys u := by simp [updKeys, hst]
      have := hmem _ this
      simp [invoiceAllowedPaidFields] at this

/-- C5: `paid` and `cancelled` are terminal for `updateInvoiceStatus` (any
whitelisted status change away from them is rejected), and `updateInvoice` on a
paid invoice rejects exactly the bodies that touch a (non-stripped) field
outside `paymentMethod`/`paidAt`/`notes` — in particular a body updating
`items` fails — while a notes-only body always succeeds and changes only
`notes`. -/
theorem invoice_paid_cancelled_terminal (inv : Invoice) (u0 : InvoiceUpdate)
    (status : String) (pm : Option String) (pa : Option Nat) (now : Nat)
    (n : String) (hs : status ∈ invoiceStatusEnum) :
    (inv.status = "paid" → status ≠ "paid" →
      updateInvoiceStatus inv status pm pa now =
        .error ⟨"Cannot change status of a paid invoice", 400⟩)
    ∧ (inv.status = "cancelled" → status ≠ "cancelled" →
      updateInvoiceStatus inv status pm pa now =
        .error ⟨"Cannot change status of a cancelled invoice", 400⟩)
    ∧ (inv.status = "paid" →
      (updateInvoice inv u0 =
          .error ⟨"Cannot modify paid invoice except payment method, paid date, and notes", 400⟩
        ↔ invalidPaidFields (invoiceUpdateStrip u0) ≠ []))
    ∧ (inv.status = "paid" → u0.items.isSome →
      updateInvoice inv u0 =
        .error ⟨"Cannot modify paid invoice except payment method, paid date, and notes", 400⟩)
    ∧ updateInvoice inv (notesOnlyUpdate n) = .ok { inv with notes := some n } := by
  have hne : ¬ status = "" := by
    simp only [invoiceStatusEnum, List.mem_cons, List.not_mem_nil, or_false] at hs
    rcases hs with rfl | rfl | rfl | rfl <;> decide
  have hguard : ¬ (status = "" ∨ status ∉ invoiceStatusEnum) := by
    push_neg
    exact ⟨hne, hs⟩
  refine ⟨?_, ?_, ?_, ?_, ?_⟩
  · intro hp hnp
    rw [updateInvoiceStatus.eq_def, if_neg hguard, if_pos ⟨hp, hnp⟩]
  · intro hc hnc
    rw [updateInvoiceStatus.eq_def, if_neg hguard,
      if_neg (by rw [hc]; rintro ⟨h, -⟩; exact absurd h (by decide)), if_pos ⟨hc, hnc⟩]
  · intro hp
    constructor
    · intro herr
      by_contra hnil
      simp only [updateInvoice] at herr
      rw [if_pos hp, if_neg (not_not_intro hnil)] at herr
      obtain ⟨hitems, hstatus⟩ := invalidPaidFields_eq_nil _ hnil
      rw [updateInvoiceRest.eq_def, hitems] at herr
      have hpe : persistInvoiceUpdate inv (invoiceUpdateStrip u0) none =
          .ok (applyInvoiceUpdate inv (invoiceUpdateStrip u0) none) := by
        rw [persistInvoiceUpdate.eq_def, hstatus]
      simp only [hpe] at herr
      exact absurd herr (by simp)
    · intro hnil
      simp only [updateInvoice]
      rw [if_pos hp, if_pos hnil]
  · intro hp hitems
    simp only [updateInvoice]
    rw [if_pos hp, if_pos ?_]
    intro hnil
    have : "items" ∈ invalidPaidFields (invoiceUpdateStrip u0) := by
      apply List.mem_filter.mpr
      refine ⟨by simp [updKeys, invoiceUpdateStrip, hitems], by simp [invoiceAllowedPaidFields]⟩
    simp [hnil] at this
  · simp only [updateInvoice]
    by_cases hp : inv.status = "paid"
    · rw [if_pos hp, if_neg (by simp [invalidPaidFields, updKeys, invoiceUpdateStrip,
        notesOnlyUpdate, invoiceAllowedPaidFields])]
      rfl
    · rw [if_neg hp]
      rfl

/-- Witness for C5: a concrete paid invoice rejects a status change to
`cancelled` and an items update, but accepts a notes-only update. -/
theorem invoice_paid_cancelled_terminal_witness :
    "cancelled" ∈ invoiceStatusEnum ∧
    (((Invoice.mk "paid" [⟨"Brakes", 2, 50, 100⟩] 20 120 10 5 125 (some "cash") (some 4) none).status
        = "paid" → "cancelled" ≠ "paid" →
      updateInvoiceStatus
          ⟨"paid", [⟨"Brakes", 2, 50, 100⟩], 20, 120, 10, 5, 125, some "cash", some 4, none⟩
          "cancelled" none none 9 =
        .error ⟨"Cannot change status of a paid invoice", 400⟩)
    ∧ (((Invoice.mk "paid" [⟨"Brakes", 2, 50, 100⟩] 20 120 10 5 125 (some "cash") (some 4) none).status
        = "paid" →
      (InvoiceUpdate.mk none none none none none none none
        (some [⟨"Brakes", 1, 30⟩]) none none none none).items.isSome →
      updateInvoice
          ⟨"paid", [⟨"Brakes", 2, 50, 100⟩], 20, 120, 10, 5, 125, some "cash", some 4, none⟩
          ⟨none, none, none, none, none, none, none, some [⟨"Brakes", 1, 30⟩], none, none, none, none⟩ =
        .error ⟨"Cannot modify paid invoice except payment method, paid date, and notes", 400⟩))
    ∧ updateInvoice
        ⟨"paid", [⟨"Brakes", 2, 50, 100⟩], 20, 120, 10, 5, 125, some "cash", some 4, none⟩
        (notesOnlyUpdate "thanks") =
      .ok { (⟨"paid", [⟨"Brakes", 2, 50, 100⟩], 20, 120, 10, 5, 125, some "cash", some 4, none⟩ : Invoice) with
              notes := some "thanks" }) :=
  ⟨by decide,
   (invoice_paid_cancelled_terminal
      ⟨"paid", [⟨"Brakes", 2, 50, 100⟩], 20, 120, 10, 5, 125, some "cash", some 4, none⟩
      ⟨none, none, none, none, none, none, none, some [⟨"Brakes", 1, 30⟩], none, none, none, none⟩
      "cancelled" none none 9 "thanks" (by decide)).1,
   (invoice_paid_cancelled_terminal
      ⟨"paid", [⟨"Brakes", 2, 50, 100⟩], 20, 120, 10, 5, 125, some "cash", some 4, none⟩
      ⟨none, none, none, none, none, none, none, some [⟨"Brakes", 1, 30⟩], none, none, none, none⟩
      "cancelled" none none 9 "thanks" (by decide)).2.2.2.1,
   (invoice_paid_cancelled_terminal
      ⟨"paid", [⟨"Brakes", 2, 50, 100⟩], 20, 120, 10, 5, 125, some "cash", some 4, none⟩
      ⟨none, none, none, none, none, none, none, some [⟨"Brakes", 1, 30⟩], none, none, none, none⟩
      "cancelled" none none 9 "thanks" (by decide)).2.2.2.2⟩

/-! ## EntityIdentifierGenerator

The pre-save hooks of `InventoryItem` (`ITM`), `Job` (`JOB`), `Vehicle`
(`VEH`), and the role-keyed `User` hook all share one algorithm: find the
lexicographically maximal existing identifier matching `^<prefix>` (via
`findOne(...).sort({ field: -1 })`), take its trailing digit run (`/(\d+)$/`),
add one (defaulting to 1), and pad to five digits. -/

/-- Lexicographic (code-point) comparison of char lists — the order the
document store applies to the ASCII identifier strings when sorting. -/
def lexLt : List Char → List Char → Bool
  | [], [] => false
  | [], _ :: _ => true
  | _ :: _, [] => false
  | a :: as, b :: bs => if a < b then true else if b < a then false else lexLt as bs

/-- String comparison backing `.sort({ field: -1 })` on identifiers. -/
def strLt (a b : String) : Bool := lexLt a.data b.data

/-- `^<prefix>` regex match on an identifier. -/
def strStartsWith (s pre : String) : Bool := pre.data.isPrefixOf s.data

/-- `findOne({ field: /^<prefix>/ }).sort({ field: -1 })` over the matching
identifiers: the lexicographically maximal one, if any. -/
def maxIdent : List String → Option String
  | [] => none
  | s :: rest => some (rest.foldl (fun a b => if strLt a b then b else a) s)

/-- The trailing digit run of an identifier (`/(\d+)$/`). -/
def trailingDigits (s : String) : List Char :=
  (s.data.reverse.takeWhile (fun c => c.isDigit)).reverse

/-- `parseInt` of the trailing digit run, when present. -/
def trailingNat (s : String) : Option Nat :=
  let d := trailingDigits s
  if d = [] then none
  else some (d.foldl (fun n c => n * 10 + (c.toNat - 48)) 0)

/-- `nextNumber.toString().padStart(5, "0")`. -/
def padStart5 (n : Nat) : String :=
  let s := toString n
  String.mk (List.replicate (5 - s.length) '0' ++ s.data)

/-- The shared identifier-generation algorithm of the pre-save hooks, for one
entity-type prefix, applied to the identifiers already in the collection. -/
def nextIdent (pre : String) (ids : List String) : String :=
  let matching := ids.filter (fun s => strStartsWith s pre)
  let nextNumber :=
    match maxIdent matching with
    | none => 1
    | some m =>
      match trailingNat m with
      | none => 1
      | some k => k + 1
  pre ++ padStart5 nextNumber

/-- C7: with no identifier of the prefix present the generator yields
`<prefix>00001`; when the lexicographically maximal matching identifier has
numeric suffix `k` it yields the prefix with suffix `k + 1` zero-padded to five
digits; and the result depends only on the maximal matching identifier, so
gaps or deletions among lower identifiers are irrelevant. -/
theorem nextIdent_spec (pre : String) (ids : List String) :
    (ids.filter (fun s => strStartsWith s pre) = [] →
      nextIdent pre ids = pre ++ "00001")
    ∧ (∀ m k, maxIdent (ids.filter (fun s => strStartsWith s pre)) = some m →
        trailingNat m = some k →
        nextIdent pre ids = pre ++ padStart5 (k + 1))
    ∧ (∀ ids', maxIdent (ids.filter (fun s => strStartsWith s pre)) =
          maxIdent (ids'.filter (fun s => strStartsWith s pre)) →
        nextIdent pre ids = nextIdent pre ids') := by
  refine ⟨?_, ?_, ?_⟩
  · intro h
    simp only [nextIdent, h]
    rfl
  · intro m k hm hk
    simp only [nextIdent, hm, hk]
  · intro ids' he
    simp only [nextIdent, he]

/-- Witness for C7: after `ITM00017` and `ITM00041` (with a foreign `VEH00099`
and a gap below 41) the generator yields `ITM00042`; on a collection with no
`ITM` identifier it yields `ITM00001`. -/
theorem nextIdent_spec_witness :
    (["VEH00099"].filter (fun s => strStartsWith s "ITM") = [] →
      nextIdent "ITM" ["VEH00099"] = "ITM" ++ "00001")
    ∧ maxIdent (["ITM00017", "ITM00041", "VEH00099"].filter
        (fun s => strStartsWith s "ITM")) = some "ITM00041"
    ∧ trailingNat "ITM00041" = some 41
    ∧ nextIdent "ITM" ["ITM00017", "ITM00041", "VEH00099"] = "ITM" ++ padStart5 (41 + 1)
    ∧ nextIdent "ITM" ["ITM00017", "ITM00041", "VEH00099"] = "ITM00042"
    ∧ nextIdent "ITM" ["VEH00099"] = "ITM00001" :=
  ⟨(nextIdent_spec "ITM" ["VEH00099"]).1, by decide, by decide,
   (nextIdent_spec "ITM" ["ITM00017", "ITM00041", "VEH00099"]).2.1 "ITM00041" 41
     (by decide) (by decide),
   by decide, by decide⟩

/-! ## LeaveRequests: create / update overlap checks (`leaveRequestController.js`)

Dates are modelled as abstract day instants (`Int`); `lrId` models the
document `_id`.  The date fields of the request body are modelled as present
(`some`) or absent; the string fields use JS truthiness (empty = absent). -/

/-- Model of a `LeaveRequest` document (fields relevant to the overlap logic). -/
structure LeaveRequest where
  lrId : String
  employee : String
  leaveType : String
  startDate : Int
  endDate : Int
  reason : String
  status : String
deriving Repr, DecidableEq

/-- The roles allowed to file leave requests. -/
def leaveEmployeeRoles : List String :=
  ["technician", "service_advisor", "manager", "admin", "cashier"]

/-- The overlap condition of the controller's query against a candidate range
`[s, e]`: `startDate: { $lte: end }, endDate: { $gte: start }`. -/
def leaveOverlaps (s e : Int) (r : LeaveRequest) : Bool :=
  decide (r.startDate ≤ e) && decide (s ≤ r.endDate)

/-- The `findOne` predicate of `createLeaveRequest`'s overlap check:
same employee, status pending or approved, ranges overlap. -/
def overlapQuery (employeeId : String) (s e : Int) (r : LeaveRequest) : Bool :=
  r.employee == employeeId &&
    (r.status == "pending" || r.status == "approved") &&
    leaveOverlaps s e r

/-- Model of `createLeaveRequest` (the requester `employeeId` with their looked
up `role`): required fields, date validation, employee-role check, the overlap
check against the collection, then insertion with status `pending` and the
freshly generated id. -/
def createLeaveRequest (db : List LeaveRequest) (employeeId role : String)
    (leaveType : String) (startDate endDate : Int) (reason : String)
    (today : Int) (newId : String) : Except CustomError (List LeaveRequest) :=
  if leaveType = "" ∨ reason = "" then
    .error ⟨"All fields are required", 400⟩
  else if startDate < today then
    .error ⟨"Start date cannot be in the past", 400⟩
  else if endDate < startDate then
    .error ⟨"End date cannot be before start date", 400⟩
  else if role ∉ leaveEmployeeRoles then
    .error ⟨"Only employees can submit leave requests", 400⟩
  else
    match db.find? (overlapQuery employeeId startDate endDate) with
    | some _ => .error ⟨"You already have a leave request for overlapping dates", 400⟩
    | none =>
      .ok (db ++ [⟨newId, employeeId, leaveType, startDate, endDate, reason, "pending"⟩])

/-- The `findOne` predicate of `updateLeaveRequest`'s overlap check: same as
the create one but excluding the request being updated (`_id: { $ne: id }`). -/
def overlapQueryExcl (id employeeId : String) (s e : Int) (r : LeaveRequest) : Bool :=
  r.lrId != id && overlapQuery employeeId s e r

/-- The per-document effect of `updateLeaveRequest`'s `findByIdAndUpdate`:
truthy body fields overwrite the matched document, others stay. -/
def leaveApplyOne (id : String) (leaveType : Option String)
    (startDate endDate : Option Int) (reason : Option String)
    (r : LeaveRequest) : LeaveRequest :=
  if r.lrId = id then
    { r with leaveType := jsOr leaveType r.leaveType,
             startDate := startDate.getD r.startDate,
             endDate := endDate.getD r.endDate,
             reason := jsOr reason r.reason }
  else r

/-- The `findByIdAndUpdate` application of `updateLeaveRequest` over the
collection. -/
def applyLeaveUpdate (db : List LeaveRequest) (id : String)
    (leaveType : Option String) (startDate endDate : Option Int)
    (reason : Option String) : List LeaveRequest :=
  db.map (leaveApplyOne id leaveType startDate endDate reason)

/-- Model of `updateLeaveRequest` (caller `userId`): lookup, ownership and
pending guards; when a date is provided, the effective range
(`startDate || leaveRequest.startDate`, dito end) is validated and checked for
overlap against the caller's other pending/approved requests; finally the
truthy fields are persisted. -/
def updateLeaveRequest (db : List LeaveRequest) (id userId : String)
    (leaveType : Option String) (startDate endDate : Option Int)
    (reason : Option String) (today : Int) : Except CustomError (List LeaveRequest) :=
  match db.find? (fun r => r.lrId == id) with
  | none => .error ⟨"Leave request not found", 404⟩
  | some lr =>
    if lr.employee ≠ userId then
      .error ⟨"You can only update your own leave requests", 403⟩
    else if lr.status ≠ "pending" then
      .error ⟨"Cannot update leave request that has been processed", 400⟩
    else if startDate.isSome ∨ endDate.isSome then
      if startDate.getD lr.startDate < today then
        .error ⟨"Start date cannot be in the past", 400⟩
      else if endDate.getD lr.endDate < startDate.getD lr.startDate then
        .error ⟨"End date cannot be before start date", 400⟩
      else
        match db.find? (overlapQueryExcl id userId (startDate.getD lr.startDate)
            (endDate.getD lr.endDate)) with
        | some _ => .error ⟨"You already have a leave request for overlapping dates", 400⟩
        | none => .ok (applyLeaveUpdate db id leaveType startDate endDate reason)
    else
      .ok (applyLeaveUpdate db id leaveType startDate endDate reason)

/-- The C9 invariant: no two distinct pending/approved requests of the same
employee have overlapping `[startDate, endDate]` ranges. -/
def LeaveNoOverlap (db : List LeaveRequest) : Prop :=
  ∀ r1 ∈ db, ∀ r2 ∈ db, r1.lrId ≠ r2.lrId →
    r1.employee = r2.employee →
    (r1.status = "pending" ∨ r1.status = "approved") →
    (r2.status = "pending" ∨ r2.status = "approved") →
    ¬ (r1.startDate ≤ r2.endDate ∧ r2.startDate ≤ r1.endDate)

/-- The create-side overlap query, as propositions. -/
theorem overlapQuery_iff (employeeId : String) (s e : Int) (r : LeaveRequest) :
    overlapQuery employeeId s e r = true ↔
      r.employee = employeeId ∧ (r.status = "pending" ∨ r.status = "approved") ∧
        r.startDate ≤ e ∧ s ≤ r.endDate := by
  simp [overlapQuery, leaveOverlaps, and_assoc]

/-- The update-side overlap query, as propositions. -/
theorem overlapQueryExcl_iff (id employeeId : String) (s e : Int) (r : LeaveRequest) :
    overlapQueryExcl id employeeId s e r = true ↔
      r.lrId ≠ id ∧ r.employee = employeeId ∧
        (r.status = "pending" ∨ r.status = "approved") ∧
        r.startDate ≤ e ∧ s ≤ r.endDate := by
  simp [overlapQueryExcl, overlapQuery_iff, and_assoc]

theorem leaveApplyOne_lrId (id : String) (lt : Option String) (sd ed : Option Int)
    (rs : Option String) (r : LeaveRequest) :
    (leaveApplyOne id lt sd ed rs r).lrId = r.lrId := by
  rw [leaveApplyOne]
  split_ifs <;> rfl

theorem leaveApplyOne_employee (id : String) (lt : Option String) (sd ed : Option Int)
    (rs : Option String) (r : LeaveRequest) :
    (leaveApplyOne id lt sd ed rs r).employee = r.employee := by
  rw [leaveApplyOne]
  split_ifs <;> rfl

theorem leaveApplyOne_status (id : String) (lt : Option String) (sd ed : Option Int)
    (rs : Option String) (r : LeaveRequest) :
    (leaveApplyOne id lt sd ed rs r).status = r.status := by
  rw [leaveApplyOne]
  split_ifs <;> rfl

theorem leaveApplyOne_startDate (id : String) (lt : Option String) (sd ed : Option Int)
    (rs : Option String) (r : LeaveRequest) :
    (leaveApplyOne id lt sd ed rs r).startDate =
      if r.lrId = id then sd.getD r.startDate else r.startDate := by
  rw [leaveApplyOne]
  split_ifs <;> rfl

theorem leaveApplyOne_endDate (id : String) (lt : Option String) (sd ed : Option Int)
    (rs : Option String) (r : LeaveRequest) :
    (leaveApplyOne id lt sd ed rs r).endDate =
      if r.lrId = id then ed.getD r.endDate else r.endDate := by
  rw [leaveApplyOne]
  split_ifs <;> rfl

/-- Core preservation argument: if the collection satisfies the no-overlap
invariant, the updated request belongs to `userId`, is pending, and no *other*
pending/approved request of `userId` overlaps the effective new range, then
the collection after `findByIdAndUpdate` still satisfies the invariant. -/
theorem applyLeaveUpdate_inv (db : List LeaveRequest) (id userId : String)
    (lt : Option String) (sd ed : Option Int) (rs : Option String) (lr : LeaveRequest)
    (huniq : (db.map (fun r => r.lrId)).Nodup)
    (hmem : lr ∈ db) (hlrid : lr.lrId = id) (howner : lr.employee = userId)
    (hnone : ∀ r ∈ db, r.lrId ≠ id → r.employee = userId →
      (r.status = "pending" ∨ r.status = "approved") →
      ¬ (r.startDate ≤ ed.getD lr.endDate ∧ sd.getD lr.startDate ≤ r.endDate))
    (hinv : LeaveNoOverlap db) :
    LeaveNoOverlap (applyLeaveUpdate db id lt sd ed rs) := by
  have hinj := List.inj_on_of_nodup_map huniq
  intro r1 h1 r2 h2 hid hemp hpa1 hpa2
  rw [applyLeaveUpdate] at h1 h2
  obtain ⟨a, ha, rfl⟩ := List.mem_map.mp h1
  obtain ⟨b, hb, rfl⟩ := List.mem_map.mp h2
  rw [leaveApplyOne_status] at hpa1 hpa2
  rw [leaveApplyOne_employee, leaveApplyOne_employee] at hemp
  rw [leaveApplyOne_lrId, leaveApplyOne_lrId] at hid
  simp only [leaveApplyOne_startDate, leaveApplyOne_endDate]
  by_cases hA : a.lrId = id <;> by_cases hB : b.lrId = id
  · exact absurd (hA.trans hB.symm) hid
  · have haeq : a = lr := hinj ha hmem (by rw [hA, hlrid])
    subst haeq
    rw [if_pos hA, if_pos hA, if_neg hB, if_neg hB]
    rintro ⟨x, y⟩
    exact hnone b hb hB (hemp ▸ howner) hpa2 ⟨y, x⟩
  · have hbeq : b = lr := hinj hb hmem (by rw [hB, hlrid])
    subst hbeq
    rw [if_neg hA, if_neg hA, if_pos hB, if_pos hB]
    rintro ⟨x, y⟩
    exact hnone a ha hA (hemp.trans howner) hpa1 ⟨x, y⟩
  · rw [if_neg hA, if_neg hA, if_neg hB, if_neg hB]
    exact hinv a ha b hb hid hemp hpa1 hpa2

/-- C9: the overlap checks of `createLeaveRequest` and `updateLeaveRequest`
reject exactly the requests whose (effective) range overlaps another
pending/approved request of the same employee, and both operations preserve
the invariant that no two distinct pending/approved requests of one employee
overlap. -/
theorem leaveRequest_no_overlapping_pending_approved
    (db : List LeaveRequest) (employeeId role leaveType : String)
    (startDate endDate : Int) (reason : String) (today : Int) (newId : String)
    (id userId : String) (uLeaveType : Option String) (uStart uEnd : Option Int)
    (uReason : Option String)
    (hlt : leaveType ≠ "") (hre : reason ≠ "")
    (h1 : ¬ startDate < today) (h2 : ¬ endDate < startDate)
    (hrole : role ∈ leaveEmployeeRoles) :
    (createLeaveRequest db employeeId role leaveType startDate endDate reason today newId =
        .error ⟨"You already have a leave request for overlapping dates", 400⟩
      ↔ ∃ r ∈ db, r.employee = employeeId ∧
          (r.status = "pending" ∨ r.status = "approved") ∧
          r.startDate ≤ endDate ∧ startDate ≤ r.endDate)
    ∧ (∀ db', createLeaveRequest db employeeId role leaveType startDate endDate reason
          today newId = .ok db' →
        LeaveNoOverlap db → LeaveNoOverlap db')
    ∧ (∀ lr, db.find? (fun r => r.lrId == id) = some lr →
        lr.employee = userId → lr.status = "pending" →
        (uStart.isSome ∨ uEnd.isSome) →
        ¬ uStart.getD lr.startDate < today →
        ¬ uEnd.getD lr.endDate < uStart.getD lr.startDate →
        (updateLeaveRequest db id userId uLeaveType uStart uEnd uReason today =
            .error ⟨"You already have a leave request for overlapping dates", 400⟩
          ↔ ∃ r ∈ db, r.lrId ≠ id ∧ r.employee = userId ∧
              (r.status = "pending" ∨ r.status = "approved") ∧
              r.startDate ≤ uEnd.getD lr.endDate ∧ uStart.getD lr.startDate ≤ r.endDate))
    ∧ ((db.map (fun r => r.lrId)).Nodup →
        ∀ db', updateLeaveRequest db id userId uLeaveType uStart uEnd uReason today = .ok db' →
        LeaveNoOverlap db → LeaveNoOverlap db') := by
  have hguards : createLeaveRequest db employeeId role leaveType startDate endDate reason
      today newId =
      (match db.find? (overlapQuery employeeId startDate endDate) with
       | some _ => .error ⟨"You already have a leave request for overlapping dates", 400⟩
       | none => .ok (db ++
           [⟨newId, employeeId, leaveType, startDate, endDate, reason, "pending"⟩])) := by
    rw [createLeaveRequest, if_neg (by push_neg; exact ⟨hlt, hre⟩), if_neg h1, if_neg h2,
      if_neg (not_not_intro hrole)]
  refine ⟨?_, ?_, ?_, ?_⟩
  · rw [hguards]
    cases hf : db.find? (overlapQuery employeeId startDate endDate) with
    | none =>
      constructor
      · intro h
        exact absurd h (by simp)
      · rintro ⟨r, hr, hprops⟩
        exact absurd ((overlapQuery_iff _ _ _ _).mpr hprops)
          (by simpa using List.find?_eq_none.mp hf r hr)
    | some r =>
      constructor
      · intro _
        exact ⟨r, List.mem_of_find?_eq_some hf, (overlapQuery_iff _ _ _ _).mp (List.find?_some hf)⟩
      · intro _
        rfl
  · intro db' hok hinv
    rw [hguards] at hok
    cases hf : db.find? (overlapQuery employeeId startDate endDate) with
    | some r =>
      rw [hf] at hok
      exact absurd hok (by simp)
    | none =>
      rw [hf] at hok
      obtain rfl : db ++ [⟨newId, employeeId, leaveType, startDate, endDate, reason, "pending"⟩]
          = db' := (Except.ok.injEq _ _).mp hok
      have hnone : ∀ r ∈ db, ¬ (r.employee = employeeId ∧
          (r.status = "pending" ∨ r.status = "approved") ∧
          r.startDate ≤ endDate ∧ startDate ≤ r.endDate) := by
        intro r hr hprops
        exact absurd ((overlapQuery_iff _ _ _ _).mpr hprops)
          (by simpa using List.find?_eq_none.mp hf r hr)
      intro r1 h1' r2 h2' hid hemp hpa1 hpa2
      rw [List.mem_append] at h1' h2'
      rcases h1' with h1' | h1' <;> rcases h2' with h2' | h2'
      · exact hinv r1 h1' r2 h2' hid hemp hpa1 hpa2
      · obtain rfl : r2 = ⟨newId, employeeId, leaveType, startDate, endDate, reason, "pending"⟩ :=
          by simpa using h2'
        rintro ⟨x, y⟩
        exact hnone r1 h1' ⟨by simpa using hemp, hpa1, x, y⟩
      · obtain rfl : r1 = ⟨newId, employeeId, leaveType, startDate, endDate, reason, "pending"⟩ :=
          by simpa using h1'
        rintro ⟨x, y⟩
        exact hnone r2 h2' ⟨by simpa using hemp.symm, hpa2, y, x⟩
      · obtain rfl : r1 = ⟨newId, employeeId, leaveType, startDate, endDate, reason, "pending"⟩ :=
          by simpa using h1'
        obtain rfl : r2 = ⟨newId, employeeId, leaveType, startDate, endDate, reason, "pending"⟩ :=
          by simpa using h2'
        exact absurd rfl hid
  · intro lr hfind howner hpend hsome hd1 hd2
    have hdef : updateLeaveRequest db id userId uLeaveType uStart uEnd uReason today =
        (match db.find? (overlapQueryExcl id userId (uStart.getD lr.startDate)
            (uEnd.getD lr.endDate)) with
         | some _ => .error ⟨"You already have a leave request for overlapping dates", 400⟩
         | none => .ok (applyLeaveUpdate db id uLeaveType uStart uEnd uReason)) := by
      rw [updateLeaveRequest.eq_def, hfind]
      dsimp only
      rw [if_neg (not_not_intro howner), if_neg (not_not_intro hpend), if_pos hsome,
        if_neg hd1, if_neg hd2]
    rw [hdef]
    cases hf : db.find? (overlapQueryExcl id userId (uStart.getD lr.startDate)
        (uEnd.getD lr.endDate)) with
    | none =>
      constructor
      · intro h
        exact absurd h (by simp)
      · rintro ⟨r, hr, hprops⟩
        exact absurd ((overlapQueryExcl_iff _ _ _ _ _).mpr hprops)
          (by simpa using List.find?_eq_none.mp hf r hr)
    | some r =>
      constructor
      · intro _
        exact ⟨r, List.mem_of_find?_eq_some hf,
          (overlapQueryExcl_iff _ _ _ _ _).mp (List.find?_some hf)⟩
      · intro _
        rfl
  · intro huniq db' hok hinv
    cases hfind : db.find? (fun r => r.lrId == id) with
    | none =>
      rw [updateLeaveRequest.eq_def, hfind] at hok
      exact absurd hok (by simp)
    | some lr =>
      have hmem : lr ∈ db := List.mem_of_find?_eq_some hfind
      have hlrid : lr.lrId = id := by simpa using List.find?_some hfind
      rw [updateLeaveRequest.eq_def, hfind] at hok
      dsimp only at hok
      by_cases ho : lr.employee ≠ userId
      · rw [if_pos ho] at hok
        exact absurd hok (by simp)
      rw [if_neg ho] at hok
      have howner : lr.employee = userId := not_not.mp ho
      by_cases hp : lr.status ≠ "pending"
      · rw [if_pos hp] at hok
        exact absurd hok (by simp)
      rw [if_neg hp] at hok
      by_cases hsome : uStart.isSome ∨ uEnd.isSome
      · rw [if_pos hsome] at hok
        by_cases hd1 : uStart.getD lr.startDate < today
        · rw [if_pos hd1] at hok
          exact absurd hok (by simp)
        rw [if_neg hd1] at hok
        by_cases hd2 : uEnd.getD lr.endDate < uStart.getD lr.startDate
        · rw [if_pos hd2] at hok
          exact absurd hok (by simp)
        rw [if_neg hd2] at hok
        cases hf : db.find? (overlapQueryExcl id userId (uStart.getD lr.startDate)
            (uEnd.getD lr.endDate)) with
        | some r =>
          rw [hf] at hok
          exact absurd hok (by simp)
        | none =>
          rw [hf] at hok
          obtain rfl : applyLeaveUpdate db id uLeaveType uStart uEnd uReason = db' :=
            (Except.ok.injEq _ _).mp hok
          refine applyLeaveUpdate_inv db id userId uLeaveType uStart uEnd uReason lr
            huniq hmem hlrid howner ?_ hinv
          intro r hr hne hempr hpa
          rintro ⟨x, y⟩
          exact absurd ((overlapQueryExcl_iff _ _ _ _ _).mpr ⟨hne, hempr, hpa, x, y⟩)
            (by simpa using List.find?_eq_none.mp hf r hr)
      · rw [if_neg hsome] at hok
        obtain rfl : applyLeaveUpdate db id uLeaveType uStart uEnd uReason = db' :=
          (Except.ok.injEq _ _).mp hok
        push_neg at hsome
        obtain ⟨hs0, he0⟩ := hsome
        obtain rfl : uStart = none := Option.not_isSome_iff_eq_none.mp (by simpa using hs0)
        obtain rfl : uEnd = none := Option.not_isSome_iff_eq_none.mp (by simpa using he0)
        refine applyLeaveUpdate_inv db id userId uLeaveType none none uReason lr
          huniq hmem hlrid howner ?_ hinv
        intro r hr hne hempr hpa
        simp only [Option.getD_none]
        have hpendlr : lr.status = "pending" := not_not.mp hp
        exact hinv r hr lr hmem (by rw [hlrid]; exact hne)
          (hempr.trans howner.symm) hpa (Or.inl hpendlr)

/-- A one-request sample collection for the C9 witness: technician `T00001`
holds an approved leave over `[10, 12]`. -/
def leaveSampleDb : List LeaveRequest :=
  [⟨"LR00001", "T00001", "annual", 10, 12, "rest", "approved"⟩]

/-- Witness for C9: creating a new request over `[11, 14]` for the same
employee is governed by the overlap characterization, and both operations
preserve the invariant on the sample collection. -/
theorem leaveRequest_no_overlapping_pending_approved_witness :
    ("sick" : String) ≠ "" ∧ ("flu" : String) ≠ "" ∧
    ¬ (11 : Int) < 5 ∧ ¬ (14 : Int) < 11 ∧
    "technician" ∈ leaveEmployeeRoles ∧
    ((createLeaveRequest leaveSampleDb "T00001" "technician" "sick" 11 14 "flu" 5 "LR00002" =
        .error ⟨"You already have a leave request for overlapping dates", 400⟩
      ↔ ∃ r ∈ leaveSampleDb, r.employee = "T00001" ∧
          (r.status = "pending" ∨ r.status = "approved") ∧
          r.startDate ≤ 14 ∧ (11 : Int) ≤ r.endDate)
    ∧ (∀ db', createLeaveRequest leaveSampleDb "T00001" "technician" "sick" 11 14 "flu" 5
          "LR00002" = .ok db' →
        LeaveNoOverlap leaveSampleDb → LeaveNoOverlap db')
    ∧ (∀ lr, leaveSampleDb.find? (fun r => r.lrId == "LR00001") = some lr →
        lr.employee = "T00001" → lr.status = "pending" →
        ((some (11 : Int)).isSome ∨ (some (14 : Int)).isSome) →
        ¬ (some (11 : Int)).getD lr.startDate < 5 →
        ¬ (some (14 : Int)).getD lr.endDate < (some (11 : Int)).getD lr.startDate →
        (updateLeaveRequest leaveSampleDb "LR00001" "T00001" none (some 11) (some 14) none 5 =
            .error ⟨"You already have a leave request for overlapping dates", 400⟩
          ↔ ∃ r ∈ leaveSampleDb, r.lrId ≠ "LR00001" ∧ r.employee = "T00001" ∧
              (r.status = "pending" ∨ r.status = "approved") ∧
              r.startDate ≤ (some (14 : Int)).getD lr.endDate ∧
              (some (11 : Int)).getD lr.startDate ≤ r.endDate))
    ∧ ((leaveSampleDb.map (fun r => r.lrId)).Nodup →
        ∀ db', updateLeaveRequest leaveSampleDb "LR00001" "T00001" none (some 11) (some 14)
            none 5 = .ok db' →
        LeaveNoOverlap leaveSampleDb → LeaveNoOverlap db')) :=
  ⟨by decide, by decide, by decide, by decide, by decide,
   leaveRequest_no_overlapping_pending_approved leaveSampleDb "T00001" "technician" "sick"
     11 14 "flu" 5 "LR00002" "LR00001" "T00001" none (some 11) (some 14) none
     (by decide) (by decide) (by decide) (by decide) (by decide)⟩

end PitStop
